import Mathlib

/-!
Verification of the ConstructFlow interactive blueprint annotation canvas.

The definitions below are a shallow embedding of the annotation-capable
`BlueprintCanvas` component and the relevant handlers of its owning page
`BlueprintViewer`.  Coordinates are modelled as rationals; JavaScript arrays
become Lean lists; nullable values become `Option`; the React `useState`
cells of the canvas are collected into a `CanvasState` record and those of
the page into a `ViewerState` record.  Callbacks fired by the canvas
(`onPathUpdate`, `onFinishDrawing`, `onObjectSelected`) are modelled as an
emitted event list, applied afterwards to the page state in emission order.
-/

namespace ConstructFlow

/-- A point in the image's natural pixel space (the `{x, y}` objects of the
source). -/
structure Point where
  x : ℚ
  y : ℚ
deriving DecidableEq, Repr

/-- A rectangle as produced by `getBoundingClientRect` / stored in `imgRect`
(`left`, `top`, `width`, `height`). -/
structure Rect where
  left : ℚ
  top : ℚ
  width : ℚ
  height : ℚ
deriving DecidableEq, Repr

/-- The image's intrinsic dimensions (`naturalSize` state: `{ w, h }`). -/
structure NaturalSize where
  w : ℚ
  h : ℚ
deriving DecidableEq, Repr

/-- The contents of `dragRef.current` while a drag is open.  The source keeps
three nullable fields `startClient`, `startPoints`, `objId`; they are always
assigned together (in `handlePathMouseDown`) and cleared together (in
`handleDragEnd`), so the embedding stores `Option DragSession`. -/
structure DragSession where
  startClient : Point
  startPoints : List Point
  objId : String
deriving DecidableEq, Repr

/-- One annotation object as produced by `startDrawing` in
`BlueprintViewer.jsx`. -/
structure AnnotationObject where
  id : String
  type : String
  pathPoints : List Point
  assignedTo : Option String
  assignedToName : Option String
  completed : Bool
  drawing : Bool
deriving DecidableEq, Repr

/-- The canvas-local state cells of `BlueprintCanvas`:
`currentPoints`, `redoStack`, `mousePos`, `dragging`, `dragRef`,
`imgRect`, `naturalSize`. -/
structure CanvasState where
  currentPoints : List Point
  redoStack : List Point
  mousePos : Option Point
  dragging : Bool
  dragRef : Option DragSession
  imgRect : Option Rect
  naturalSize : Option NaturalSize
deriving DecidableEq, Repr

/-- The page state cells of `BlueprintViewer` relevant to the canvas:
`blueprintImage`, `objects`, `activeObjectId`, `selectedObjectId`. -/
structure ViewerState where
  blueprintImage : Option String
  objects : List AnnotationObject
  activeObjectId : Option String
  selectedObjectId : Option String
deriving DecidableEq, Repr

/-- Callbacks the canvas fires towards the page, in order of emission. -/
inductive Emit where
  | pathUpdate (id : String) (points : List Point)
  | finishDrawing (id : String)
  | objectSelected (id : String)
deriving DecidableEq, Repr

/-- A keyboard event as consumed by `handleKeyDown` (`ctrlKey`, `shiftKey`,
`key`). -/
structure KeyEvent where
  ctrlKey : Bool
  shiftKey : Bool
  key : String
deriving DecidableEq, Repr

/-- `clientToSvg(clientX, clientY)`: converts client coordinates to
natural-image pixels.  Returns `(0,0)` when `imgRect` or `naturalSize` is
unset or the container is unmounted; otherwise subtracts the container's and
the image's offsets and scales each axis by natural size over rendered
size. -/
def clientToSvg (imgRect : Option Rect) (naturalSize : Option NaturalSize)
    (container : Option Rect) (clientX clientY : ℚ) : Point :=
  match imgRect, naturalSize with
  | some ir, some ns =>
    match container with
    | none => ⟨0, 0⟩
    | some cRect =>
      let relX := clientX - cRect.left - ir.left
      let relY := clientY - cRect.top - ir.top
      ⟨relX / ir.width * ns.w, relY / ir.height * ns.h⟩
  | _, _ => ⟨0, 0⟩

/-- `handleSvgClick(e)`: while drawing (and not dragging), append the
converted point to `currentPoints` and clear `redoStack`. -/
def handleSvgClick (activeObjectId : Option String) (container : Option Rect)
    (s : CanvasState) (clientX clientY : ℚ) : CanvasState :=
  if activeObjectId.isNone || s.dragging then s
  else
    let pos := clientToSvg s.imgRect s.naturalSize container clientX clientY
    { s with currentPoints := s.currentPoints ++ [pos], redoStack := [] }

/-- `handleSvgDoubleClick(e)`: finish the drawing.  The two single clicks of
the double-click already appended two points, so the last point is dropped
(`currentPoints.slice(0, -1)`).  With fewer than 2 remaining points the local
state is cleared and nothing is emitted; otherwise `onPathUpdate` is fired
first, then `onFinishDrawing`, then the local state is cleared. -/
def handleSvgDoubleClick (activeObjectId : Option String) (s : CanvasState) :
    CanvasState × List Emit :=
  match activeObjectId with
  | none => (s, [])
  | some id =>
    let trimmed := s.currentPoints.dropLast
    if trimmed.length < 2 then
      ({ s with currentPoints := [], redoStack := [], mousePos := none }, [])
    else
      ({ s with currentPoints := [], redoStack := [], mousePos := none },
        [Emit.pathUpdate id trimmed, Emit.finishDrawing id])

/-- `handleKeyDown(e)`: Ctrl+Shift+Z pops the last redo point back onto
`currentPoints`; Ctrl+Z (without shift) pops the last current point onto
`redoStack`.  Ignored when no drawing is active. -/
def handleKeyDown (activeObjectId : Option String) (e : KeyEvent)
    (s : CanvasState) : CanvasState :=
  if activeObjectId.isNone then s
  else if e.ctrlKey && e.shiftKey && (e.key == "Z" || e.key == "z") then
    match s.redoStack.getLast? with
    | none => s
    | some point =>
      { s with currentPoints := s.currentPoints ++ [point],
               redoStack := s.redoStack.dropLast }
  else if e.ctrlKey && !e.shiftKey && (e.key == "z" || e.key == "Z") then
    match s.currentPoints.getLast? with
    | none => s
    | some removed =>
      { s with redoStack := s.redoStack ++ [removed],
               currentPoints := s.currentPoints.dropLast }
  else s

/-- The undo key combination (Ctrl+Z). -/
def undoKey : KeyEvent := ⟨true, false, "z"⟩

/-- The redo key combination (Ctrl+Shift+Z). -/
def redoKey : KeyEvent := ⟨true, true, "Z"⟩

/-- `handlePathMouseDown(e, obj)`: ignored while a drawing is active;
otherwise fires `onObjectSelected(obj)`, captures the drag snapshot
(`startClient`, a copy of `obj.pathPoints`, `obj.id`) and sets `dragging`. -/
def handlePathMouseDown (activeObjectId : Option String) (s : CanvasState)
    (client : Point) (obj : AnnotationObject) : CanvasState × List Emit :=
  if activeObjectId.isSome then (s, [])
  else
    ({ s with dragRef := some ⟨client, obj.pathPoints, obj.id⟩,
              dragging := true },
      [Emit.objectSelected obj.id])

/-- The `onMouseDown` attribute of a rendered path:
`(e) => !isWorker && handlePathMouseDown(e, obj)`. -/
def pathOnMouseDown (isWorker : Bool) (activeObjectId : Option String)
    (s : CanvasState) (client : Point) (obj : AnnotationObject) :
    CanvasState × List Emit :=
  if isWorker then (s, []) else handlePathMouseDown activeObjectId s client obj

/-- `handleDragMove(e)`: converts the client-pixel delta from the drag start
to natural pixels using the current scale factors and reports the snapshot
translated by that delta.  No-op without a drag snapshot or a valid
geometry frame. -/
def handleDragMove (s : CanvasState) (clientX clientY : ℚ) : List Emit :=
  match s.dragRef, s.imgRect, s.naturalSize with
  | some d, some ir, some ns =>
    let dxNat := (clientX - d.startClient.x) / ir.width * ns.w
    let dyNat := (clientY - d.startClient.y) / ir.height * ns.h
    [Emit.pathUpdate d.objId
      (d.startPoints.map (fun p => ⟨p.x + dxNat, p.y + dyNat⟩))]
  | _, _, _ => []

/-- `handleDragEnd()`: closes the drag session. -/
def handleDragEnd (s : CanvasState) : CanvasState :=
  { s with dragging := false, dragRef := none }

/-- `handleSvgMouseMove(e)`: while drawing, updates the rubber-band
`mousePos`; while dragging, delegates to `handleDragMove`. -/
def handleSvgMouseMove (activeObjectId : Option String)
    (container : Option Rect) (s : CanvasState) (clientX clientY : ℚ) :
    CanvasState × List Emit :=
  let pos := clientToSvg s.imgRect s.naturalSize container clientX clientY
  let s1 :=
    if activeObjectId.isSome then { s with mousePos := some pos } else s
  (s1, if s1.dragging then handleDragMove s1 clientX clientY else [])

/-- The `useEffect` on `activeObjectId`: reset `currentPoints`, `redoStack`
and `mousePos` whenever the active object changes. -/
def resetDrawingLocal (s : CanvasState) : CanvasState :=
  { s with currentPoints := [], redoStack := [], mousePos := none }

/-- The cursor style of a rendered path in the canvas JSX. -/
def pathCursor (activeObjectId : Option String)
    (isSelected isWorker dragging : Bool) : String :=
  if activeObjectId.isSome then "crosshair"
  else if isSelected && !isWorker then
    if dragging then "grabbing" else "grab"
  else "pointer"

/-- `handlePathUpdate(id, points)` in `BlueprintViewer.jsx`: replace the
path of the object with that id. -/
def handlePathUpdate (v : ViewerState) (id : String) (points : List Point) :
    ViewerState :=
  let objs :=
    v.objects.map (fun o => if o.id == id then { o with pathPoints := points } else o)
  { v with objects := objs }

/-- `handleFinishDrawing(id)` in `BlueprintViewer.jsx`: clear the object's
`drawing` flag and deactivate drawing. -/
def handleFinishDrawing (v : ViewerState) (id : String) : ViewerState :=
  let objs :=
    v.objects.map (fun o => if o.id == id then { o with drawing := false } else o)
  { v with objects := objs, activeObjectId := none }

/-- `cancelActiveDrawing()` in `BlueprintViewer.jsx`: remove the active
object if it has no points, otherwise clear its `drawing` flag; always
deactivate drawing. -/
def cancelActiveDrawing (v : ViewerState) : ViewerState :=
  let objs :=
    match v.objects.find? (fun o => some o.id == v.activeObjectId) with
    | none => v.objects
    | some active =>
      if active.pathPoints.length == 0 then
        v.objects.filter (fun o => !(some o.id == v.activeObjectId))
      else
        v.objects.map
          (fun o => if some o.id == v.activeObjectId then
            { o with drawing := false } else o)
  { v with objects := objs, activeObjectId := none }

/-- `startDrawing(type)` in `BlueprintViewer.jsx`: requires an uploaded
image; cancels any active drawing, appends a fresh empty object and makes it
active and selected.  The generated identifier is passed in explicitly. -/
def startDrawing (v : ViewerState) (id ty : String) : ViewerState :=
  if v.blueprintImage.isNone then v
  else
    let v1 := if v.activeObjectId.isSome then cancelActiveDrawing v else v
    { v1 with
        objects := v1.objects ++
          [⟨id, ty, [], none, none, false, true⟩],
        activeObjectId := some id,
        selectedObjectId := some id }

/-- The canvas's `activeObjectId` prop: `BlueprintViewer` passes
`isAdmin ? activeObjectId : null`. -/
def canvasActiveId (isWorker : Bool) (v : ViewerState) : Option String :=
  if isWorker then none else v.activeObjectId

/-- Application of one canvas callback to the page state.  For workers the
page passes `undefined` for `onPathUpdate` and `onFinishDrawing`, so those
emissions are dropped; `onObjectSelected` sets the selection only when no
drawing is active. -/
def applyEmit (isWorker : Bool) (v : ViewerState) : Emit → ViewerState
  | .pathUpdate id pts => if isWorker then v else handlePathUpdate v id pts
  | .finishDrawing id => if isWorker then v else handleFinishDrawing v id
  | .objectSelected id =>
    if v.activeObjectId.isSome then v else { v with selectedObjectId := some id }

/-- Combined state of the page and the canvas. -/
structure SysState where
  viewer : ViewerState
  canvas : CanvasState
deriving DecidableEq, Repr

/-- Input events of the combined interaction machine.  Each constructor
corresponds to one synchronous DOM handler of the source: toolbar draw
button (`startDraw`), cancel button, image-source change, a successful
`measureImage`, and the SVG / path handlers of the canvas. -/
inductive Ev where
  | startDraw (id ty : String)
  | cancelDraw
  | imageChange (url : Option String)
  | measure (r : Rect) (ns : NaturalSize)
  | svgClick (container : Option Rect) (cx cy : ℚ)
  | svgDblClick
  | keyDown (e : KeyEvent)
  | pathMouseDown (client : Point) (idx : ℕ)
  | pathClick (idx : ℕ)
  | mouseMove (container : Option Rect) (cx cy : ℚ)
  | dragEnd
deriving DecidableEq, Repr

/-- One synchronous step of the combined machine: run the handler, apply
the emitted callbacks to the page state in order, and run the canvas's
reset effect when its `activeObjectId` prop changed. -/
def sysStep (isWorker : Bool) (s : SysState) (e : Ev) : SysState :=
  let v := s.viewer
  let c := s.canvas
  let act := canvasActiveId isWorker v
  let r : ViewerState × CanvasState × List Emit :=
    match e with
    | .startDraw id ty => (startDrawing v id ty, c, [])
    | .cancelDraw => (cancelActiveDrawing v, c, [])
    | .imageChange url =>
      ({ v with blueprintImage := url },
        { c with imgRect := none, naturalSize := none }, [])
    | .measure rect ns =>
      (v, { c with imgRect := some rect, naturalSize := some ns }, [])
    | .svgClick container cx cy => (v, handleSvgClick act container c cx cy, [])
    | .svgDblClick =>
      let p := handleSvgDoubleClick act c
      (v, p.1, p.2)
    | .keyDown ke => (v, handleKeyDown act ke c, [])
    | .pathMouseDown client idx =>
      match v.objects[idx]? with
      | none => (v, c, [])
      | some obj =>
        let p := pathOnMouseDown isWorker act c client obj
        (v, p.1, p.2)
    | .pathClick idx =>
      match v.objects[idx]? with
      | none => (v, c, [])
      | some obj =>
        if act.isSome || c.dragging then (v, c, [])
        else (v, c, [Emit.objectSelected obj.id])
    | .mouseMove container cx cy =>
      let p := handleSvgMouseMove act container c cx cy
      (v, p.1, p.2)
    | .dragEnd => (v, handleDragEnd c, [])
  let v2 := r.2.2.foldl (applyEmit isWorker) r.1
  let c2 :=
    if canvasActiveId isWorker v2 ≠ canvasActiveId isWorker v then
      resetDrawingLocal r.2.1
    else r.2.1
  ⟨v2, c2⟩

/-- Initial canvas state (the `useState` initialisers of the source). -/
def initCanvas : CanvasState :=
  ⟨[], [], none, false, none, none, none⟩

/-- Initial page state (the `useState` initialisers of the source). -/
def initViewer : ViewerState :=
  ⟨none, [], none, none⟩

/-- Initial combined state. -/
def initSys : SysState := ⟨initViewer, initCanvas⟩

/-- DOM-level precondition of an event: a toolbar draw-button click can only
be delivered after the primary pointer was released, and a pointer release
over the interactive surface (or leaving it) has already closed any drag
session (`onMouseUp` / `onMouseLeave` call `handleDragEnd`), so `startDraw`
can only fire while no drag is open.  All canvas events may fire at any
time. -/
def evAllowed (s : SysState) : Ev → Prop
  | .startDraw _ _ => s.canvas.dragging = false
  | _ => True

/-- States reachable from the initial state by allowed events. -/
inductive Reachable (isWorker : Bool) : SysState → Prop
  | init : Reachable isWorker initSys
  | step (s : SysState) (e : Ev) (hs : Reachable isWorker s)
      (he : evAllowed s e) : Reachable isWorker (sysStep isWorker s e)

/-- The full double-click step of the page-plus-canvas system in the admin
view, with the emitted callbacks exposed: run `handleSvgDoubleClick`, apply
its emissions to the page in order, then run the canvas's reset effect if
the active object changed. -/
def sysDoubleClickE (v : ViewerState) (c : CanvasState) :
    ViewerState × CanvasState × List Emit :=
  let p := handleSvgDoubleClick v.activeObjectId c
  let v2 := p.2.foldl (applyEmit false) v
  let c2 :=
    if v2.activeObjectId ≠ v.activeObjectId then resetDrawingLocal p.1 else p.1
  (v2, c2, p.2)

/-- A page state holding one freshly started (still drawing) pipe object. -/
def sampleViewer : ViewerState :=
  ⟨some "plan.png", [⟨"obj-1", "pipe", [], none, none, false, true⟩],
    some "obj-1", some "obj-1"⟩

/-- A canvas state whose buffer holds the duplicated single point of a
degenerate double-click (`[p0, p0]`, so one point remains after trimming). -/
def degenerateCanvas : CanvasState :=
  ⟨[⟨5, 5⟩, ⟨5, 5⟩], [⟨9, 9⟩], some ⟨5, 5⟩, false, none,
    some ⟨0, 0, 100, 50⟩, some ⟨200, 100⟩⟩

/-- A canvas state holding the raw buffer `[p0, p1, p2, p2]` produced by
three user clicks plus the duplicated second click of the double-click. -/
def fourPointCanvas : CanvasState :=
  ⟨[⟨0, 0⟩, ⟨10, 0⟩, ⟨10, 8⟩, ⟨10, 8⟩], [], none, false, none,
    some ⟨0, 0, 100, 50⟩, some ⟨200, 100⟩⟩

/-- A canvas state with an open drag session on a two-point path. -/
def draggingCanvas : CanvasState :=
  ⟨[], [], none, true, some ⟨⟨50, 40⟩, [⟨0, 0⟩, ⟨30, 20⟩], "obj-1"⟩,
    some ⟨0, 0, 100, 50⟩, some ⟨200, 100⟩⟩

/-- C1: finishing a drawing by double-click on a raw buffer of length
`n ≥ 3` discards exactly the last appended point: the path reported upward
through `onPathUpdate` is the first `n - 1` points of the buffer, followed
by the finish notification. -/
theorem doubleClick_finalizes_first_n_minus_one (id : String)
    (s : CanvasState) (h : 3 ≤ s.currentPoints.length) :
    handleSvgDoubleClick (some id) s =
      ({ s with currentPoints := [], redoStack := [], mousePos := none },
        [Emit.pathUpdate id
            (List.take (s.currentPoints.length - 1) s.currentPoints),
          Emit.finishDrawing id]) := by
  have hlen : ¬ s.currentPoints.length - 1 < 2 := by omega
  simp [handleSvgDoubleClick, hlen, ← List.dropLast_eq_take]

/-- Witness for C1 at the spec's example buffer `[p0, p1, p2, p2]`,
finalizing to `[p0, p1, p2]`. -/
theorem doubleClick_finalizes_first_n_minus_one_witness :
    handleSvgDoubleClick (some "obj-1") fourPointCanvas =
      (⟨[], [], none, false, none, some ⟨0, 0, 100, 50⟩, some ⟨200, 100⟩⟩,
        [Emit.pathUpdate "obj-1" [⟨0, 0⟩, ⟨10, 0⟩, ⟨10, 8⟩],
          Emit.finishDrawing "obj-1"]) := by
  have h := doubleClick_finalizes_first_n_minus_one "obj-1" fourPointCanvas
    (by simp [fourPointCanvas])
  simpa [fourPointCanvas] using h

/-- C2 counterexample: a double-click whose trimmed buffer has a single
point does not remove the annotation from the page's object list — the
page state is completely unchanged (the object is still there, still
marked drawing, and drawing stays active), because no callback is fired. -/
theorem degenerate_finish_keeps_object :
    (sysDoubleClickE sampleViewer degenerateCanvas).1 = sampleViewer ∧
    sampleViewer.objects ≠ [] := by
  constructor
  · simp [sysDoubleClickE, handleSvgDoubleClick, sampleViewer,
      degenerateCanvas, resetDrawingLocal]
  · simp [sampleViewer]

/-- C2 (amended): a double-click finish whose trimmed buffer has fewer than
2 points leaves the annotation list untouched (the object is NOT removed),
clears only the canvas-local point buffer, redo buffer and pointer preview,
keeps drawing active, and emits neither a path-updated nor a
drawing-finished notification. -/
theorem degenerate_finish_abandons_locally (v : ViewerState)
    (c : CanvasState) (id : String) (ha : v.activeObjectId = some id)
    (h : c.currentPoints.dropLast.length < 2) :
    sysDoubleClickE v c = (v, resetDrawingLocal c, []) := by
  have hlen : c.currentPoints.length - 1 < 2 := by
    rw [List.length_dropLast] at h; omega
  simp [sysDoubleClickE, handleSvgDoubleClick, ha, hlen, resetDrawingLocal]

/-- Witness for the amended C2 at the degenerate buffer `[p0, p0]`. -/
theorem degenerate_finish_abandons_locally_witness :
    sysDoubleClickE sampleViewer degenerateCanvas =
      (sampleViewer, resetDrawingLocal degenerateCanvas, []) :=
  degenerate_finish_abandons_locally sampleViewer degenerateCanvas "obj-1"
    (by simp [sampleViewer]) (by simp [degenerateCanvas])

/-- C4: a direct click that adds a point always leaves the redo buffer
empty afterwards, whatever the redo buffer held before. -/
theorem click_clears_redo (id : String) (container : Option Rect)
    (s : CanvasState) (cx cy : ℚ) (h : s.dragging = false) :
    handleSvgClick (some id) container s cx cy =
      { s with
          currentPoints := s.currentPoints ++
            [clientToSvg s.imgRect s.naturalSize container cx cy],
          redoStack := [] } := by
  simp [handleSvgClick, h]

/-- Witness for C4: a click with a non-empty redo buffer (the canvas of
`degenerateCanvas` holds redo point `(9,9)`) empties it. -/
theorem click_clears_redo_witness :
    handleSvgClick (some "obj-1") (some ⟨0, 0, 400, 300⟩) degenerateCanvas
        50 25 =
      { degenerateCanvas with
          currentPoints := degenerateCanvas.currentPoints ++ [⟨100, 50⟩],
          redoStack := [] } := by
  have h := click_clears_redo "obj-1" (some ⟨0, 0, 400, 300⟩)
    degenerateCanvas 50 25 (by simp [degenerateCanvas])
  rw [h]
  simp [degenerateCanvas, clientToSvg]
  norm_num

/-- C5: on every successful finish the canvas emits exactly the
path-updated callback with the finalized sequence first and the
drawing-finished callback second (never the other way round), and the
state it leaves behind has the point buffer, redo buffer and pointer
position cleared. -/
theorem finish_emission_order (id : String) (s : CanvasState)
    (h : 2 ≤ s.currentPoints.dropLast.length) :
    (handleSvgDoubleClick (some id) s).2 =
      [Emit.pathUpdate id s.currentPoints.dropLast,
        Emit.finishDrawing id] ∧
    (handleSvgDoubleClick (some id) s).1 = resetDrawingLocal s := by
  have hlen : ¬ s.currentPoints.length - 1 < 2 := by
    rw [List.length_dropLast] at h; omega
  constructor <;> simp [handleSvgDoubleClick, hlen, resetDrawingLocal]

/-- Witness for C5 at the four-point buffer. -/
theorem finish_emission_order_witness :
    (handleSvgDoubleClick (some "obj-1") fourPointCanvas).2 =
      [Emit.pathUpdate "obj-1" [⟨0, 0⟩, ⟨10, 0⟩, ⟨10, 8⟩],
        Emit.finishDrawing "obj-1"] ∧
    (handleSvgDoubleClick (some "obj-1") fourPointCanvas).1 =
      resetDrawingLocal fourPointCanvas := by
  have h := finish_emission_order "obj-1" fourPointCanvas
    (by simp [fourPointCanvas])
  constructor
  · rw [h.1]; simp [fourPointCanvas]
  · exact h.2

/-- C7: `clientToSvg` returns the degenerate default `(0,0)` whenever the
geometry frame is invalid (image rect or natural size unmeasured, or the
container unmounted); with a valid frame it returns the pointer position
relative to the container, minus the image's offset inside the container,
scaled per axis by natural over rendered size. -/
theorem toImageSpace_spec :
    (∀ (ns : Option NaturalSize) (container : Option Rect) (cx cy : ℚ),
      clientToSvg none ns container cx cy = ⟨0, 0⟩) ∧
    (∀ (ir : Option Rect) (container : Option Rect) (cx cy : ℚ),
      clientToSvg ir none container cx cy = ⟨0, 0⟩) ∧
    (∀ (ir : Rect) (ns : NaturalSize) (cx cy : ℚ),
      clientToSvg (some ir) (some ns) none cx cy = ⟨0, 0⟩) ∧
    (∀ (ir : Rect) (ns : NaturalSize) (cRect : Rect) (cx cy : ℚ),
      clientToSvg (some ir) (some ns) (some cRect) cx cy =
        ⟨(cx - cRect.left - ir.left) / ir.width * ns.w,
          (cy - cRect.top - ir.top) / ir.height * ns.h⟩) := by
  refine ⟨?_, ?_, ?_, ?_⟩
  · intro ns container cx cy; rfl
  · intro ir container cx cy; cases ir <;> rfl
  · intro ir ns cx cy; rfl
  · intro ir ns cRect cx cy; rfl

/-- With the Ctrl+Z combination `handleKeyDown` takes the undo branch. -/
lemma handleKeyDown_undoKey (id : String) (s : CanvasState) :
    handleKeyDown (some id) undoKey s =
      match s.currentPoints.getLast? with
      | none => s
      | some removed =>
        { s with redoStack := s.redoStack ++ [removed],
                 currentPoints := s.currentPoints.dropLast } := by
  rfl

/-- With the Ctrl+Shift+Z combination `handleKeyDown` takes the redo
branch. -/
lemma handleKeyDown_redoKey (id : String) (s : CanvasState) :
    handleKeyDown (some id) redoKey s =
      match s.redoStack.getLast? with
      | none => s
      | some point =>
        { s with currentPoints := s.currentPoints ++ [point],
                 redoStack := s.redoStack.dropLast } := by
  rfl

/-- C3: while drawing, one undo on a non-empty point buffer removes exactly
the last point and pushes it onto the redo buffer, and an immediate redo
restores the exact original state (`redo(undo(S)) = S`); undo on an empty
point buffer and redo on an empty redo buffer are no-ops. -/
theorem undo_redo_roundtrip :
    (∀ (id : String) (s : CanvasState) (h : s.currentPoints ≠ []),
      (handleKeyDown (some id) undoKey s).currentPoints.length =
        s.currentPoints.length - 1 ∧
      (handleKeyDown (some id) undoKey s).redoStack =
        s.redoStack ++ [s.currentPoints.getLast h] ∧
      handleKeyDown (some id) redoKey (handleKeyDown (some id) undoKey s) =
        s) ∧
    (∀ (id : String) (s : CanvasState), s.currentPoints = [] →
      handleKeyDown (some id) undoKey s = s) ∧
    (∀ (id : String) (s : CanvasState), s.redoStack = [] →
      handleKeyDown (some id) redoKey s = s) := by
  refine ⟨?_, ?_, ?_⟩
  · intro id s h
    have hget : s.currentPoints.getLast? =
        some (s.currentPoints.getLast h) := List.getLast?_eq_getLast _ h
    refine ⟨?_, ?_, ?_⟩
    · simp [handleKeyDown_undoKey, hget]
    · simp [handleKeyDown_undoKey, hget]
    · simp [handleKeyDown_undoKey, handleKeyDown_redoKey, hget,
        List.getLast?_concat, List.dropLast_concat,
        List.dropLast_append_getLast h]
  · intro id s h
    simp [handleKeyDown_undoKey, h]
  · intro id s h
    simp [handleKeyDown_redoKey, h]

/-- Witness for C3 at a two-point buffer with a non-trivial redo stack. -/
theorem undo_redo_roundtrip_witness :
    (handleKeyDown (some "obj-1") undoKey fourPointCanvas).currentPoints.length
        = 3 ∧
    (handleKeyDown (some "obj-1") undoKey fourPointCanvas).redoStack =
      [⟨10, 8⟩] ∧
    handleKeyDown (some "obj-1") redoKey
        (handleKeyDown (some "obj-1") undoKey fourPointCanvas) =
      fourPointCanvas := by
  have h := undo_redo_roundtrip.1 "obj-1" fourPointCanvas
    (by simp [fourPointCanvas])
  refine ⟨?_, ?_, h.2.2⟩
  · rw [h.1]; rfl
  · rw [h.2.1]; simp [fourPointCanvas]

/-- `handleSvgMouseMove` only ever touches `mousePos`: the drag mode, drag
snapshot and geometry frame survive every pointer move. -/
lemma mouseMove_preserves (act : Option String) (container : Option Rect)
    (s : CanvasState) (cx cy : ℚ) :
    ((handleSvgMouseMove act container s cx cy).1).dragging = s.dragging ∧
    ((handleSvgMouseMove act container s cx cy).1).dragRef = s.dragRef ∧
    ((handleSvgMouseMove act container s cx cy).1).imgRect = s.imgRect ∧
    ((handleSvgMouseMove act container s cx cy).1).naturalSize =
      s.naturalSize := by
  cases act <;> simp [handleSvgMouseMove]

/-- `handleDragMove` reads only the drag snapshot and the geometry frame. -/
lemma handleDragMove_congr (s t : CanvasState) (cx cy : ℚ)
    (h1 : s.dragRef = t.dragRef) (h2 : s.imgRect = t.imgRect)
    (h3 : s.naturalSize = t.naturalSize) :
    handleDragMove s cx cy = handleDragMove t cx cy := by
  simp [handleDragMove, h1, h2, h3]

/-- The emission of one pointer move is the drag report computed from the
pre-move state. -/
lemma mouseMove_emits (act : Option String) (container : Option Rect)
    (s : CanvasState) (cx cy : ℚ) :
    (handleSvgMouseMove act container s cx cy).2 =
      if s.dragging then handleDragMove s cx cy else [] := by
  have hm := mouseMove_preserves act container s cx cy
  have hsnd : (handleSvgMouseMove act container s cx cy).2 =
      (if ((handleSvgMouseMove act container s cx cy).1).dragging then
        handleDragMove ((handleSvgMouseMove act container s cx cy).1) cx cy
      else []) := rfl
  rw [hsnd, hm.1]
  cases hd : s.dragging
  · rfl
  · simp only [if_true]
    exact handleDragMove_congr _ _ cx cy hm.2.1 hm.2.2.1 hm.2.2.2

/-- The canvas state reached after a list of intermediate pointer moves. -/
def foldMoves (act : Option String) (container : Option Rect)
    (s : CanvasState) (moves : List (ℚ × ℚ)) : CanvasState :=
  moves.foldl
    (fun st q => (handleSvgMouseMove act container st q.1 q.2).1) s

/-- Any run of intermediate moves leaves the drag mode, drag snapshot and
geometry frame as they were at drag start. -/
lemma foldMoves_preserves (act : Option String) (container : Option Rect)
    (s : CanvasState) (moves : List (ℚ × ℚ)) :
    (foldMoves act container s moves).dragging = s.dragging ∧
    (foldMoves act container s moves).dragRef = s.dragRef ∧
    (foldMoves act container s moves).imgRect = s.imgRect ∧
    (foldMoves act container s moves).naturalSize = s.naturalSize := by
  induction moves generalizing s with
  | nil => simp [foldMoves]
  | cons q qs ih =>
    have hs := mouseMove_preserves act container s q.1 q.2
    have hq := ih ((handleSvgMouseMove act container s q.1 q.2).1)
    simp only [foldMoves, List.foldl_cons] at hq ⊢
    exact ⟨hq.1.trans hs.1, hq.2.1.trans hs.2.1, hq.2.2.1.trans hs.2.2.1,
      hq.2.2.2.trans hs.2.2.2⟩

/-- C6: during one drag session every reported path equals the snapshot
captured at drag start, each point translated by the single delta
`((cx - startX) / renderedWidth * naturalWidth,
(cy - startY) / renderedHeight * naturalHeight)`; and the emission of a
move depends only on the current pointer position and the state at drag
start, so any sequence of intermediate moves ending at a given pointer
position reports exactly the same path as one direct move there. -/
theorem drag_translates_snapshot :
    (∀ (s : CanvasState) (d : DragSession) (ir : Rect) (ns : NaturalSize)
        (cx cy : ℚ), s.dragRef = some d → s.imgRect = some ir →
        s.naturalSize = some ns →
      handleDragMove s cx cy =
        [Emit.pathUpdate d.objId (d.startPoints.map (fun p =>
          ⟨p.x + (cx - d.startClient.x) / ir.width * ns.w,
            p.y + (cy - d.startClient.y) / ir.height * ns.h⟩))]) ∧
    (∀ (act : Option String) (container : Option Rect) (s : CanvasState)
        (moves : List (ℚ × ℚ)) (cx cy : ℚ),
      (handleSvgMouseMove act container (foldMoves act container s moves)
          cx cy).2 =
        (handleSvgMouseMove act container s cx cy).2) := by
  constructor
  · intro s d ir ns cx cy h1 h2 h3
    simp [handleDragMove, h1, h2, h3]
  · intro act container s moves cx cy
    have hp := foldMoves_preserves act container s moves
    rw [mouseMove_emits, mouseMove_emits, hp.1]
    cases hd : s.dragging
    · rfl
    · simp only [if_true]
      exact handleDragMove_congr _ _ cx cy hp.2.1 hp.2.2.1 hp.2.2.2

/-- Witness for C6: one drag move over the session of `draggingCanvas`. -/
theorem drag_translates_snapshot_witness :
    handleDragMove draggingCanvas 60 45 =
      [Emit.pathUpdate "obj-1" [⟨20, 10⟩, ⟨50, 30⟩]] := by
  have h := drag_translates_snapshot.1 draggingCanvas
    ⟨⟨50, 40⟩, [⟨0, 0⟩, ⟨30, 20⟩], "obj-1"⟩ ⟨0, 0, 100, 50⟩ ⟨200, 100⟩
    60 45 rfl rfl rfl
  rw [h]
  norm_num

/-- The reset effect touches neither the drag mode nor the snapshot. -/
lemma reset_ite_fields (b : Prop) [Decidable b] (c : CanvasState) :
    ((if b then resetDrawingLocal c else c)).dragging = c.dragging ∧
    ((if b then resetDrawingLocal c else c)).dragRef = c.dragRef := by
  split <;> exact ⟨rfl, rfl⟩

/-- `handleSvgClick` touches neither the drag mode nor the snapshot. -/
lemma handleSvgClick_fields (act : Option String) (container : Option Rect)
    (s : CanvasState) (cx cy : ℚ) :
    (handleSvgClick act container s cx cy).dragging = s.dragging ∧
    (handleSvgClick act container s cx cy).dragRef = s.dragRef := by
  unfold handleSvgClick; split <;> exact ⟨rfl, rfl⟩

/-- `handleSvgDoubleClick` touches neither the drag mode nor the
snapshot. -/
lemma handleSvgDoubleClick_fields (act : Option String) (s : CanvasState) :
    ((handleSvgDoubleClick act s).1).dragging = s.dragging ∧
    ((handleSvgDoubleClick act s).1).dragRef = s.dragRef := by
  unfold handleSvgDoubleClick
  cases act
  · exact ⟨rfl, rfl⟩
  · dsimp only
    split <;> exact ⟨rfl, rfl⟩

/-- `handleKeyDown` touches neither the drag mode nor the snapshot. -/
lemma handleKeyDown_fields (act : Option String) (e : KeyEvent)
    (s : CanvasState) :
    (handleKeyDown act e s).dragging = s.dragging ∧
    (handleKeyDown act e s).dragRef = s.dragRef := by
  unfold handleKeyDown
  split
  · exact ⟨rfl, rfl⟩
  · split
    · cases hr : s.redoStack.getLast? <;> simp
    · split
      · cases hc : s.currentPoints.getLast? <;> simp
      · exact ⟨rfl, rfl⟩

/-- No canvas callback moves the page's active object except
`finishDrawing`, which clears it. -/
lemma applyEmit_active (isWorker : Bool) (v : ViewerState) (e : Emit) :
    (applyEmit isWorker v e).activeObjectId = v.activeObjectId ∨
    (applyEmit isWorker v e).activeObjectId = none := by
  cases e with
  | pathUpdate id pts =>
    left
    cases isWorker <;> simp [applyEmit, handlePathUpdate]
  | finishDrawing id =>
    cases isWorker
    · right
      simp [applyEmit, handleFinishDrawing]
    · left
      simp [applyEmit]
  | objectSelected id =>
    left
    by_cases h : v.activeObjectId.isSome = true <;> simp [applyEmit, h]

/-- `handleDragMove` reports path updates only. -/
lemma handleDragMove_emits (s : CanvasState) (cx cy : ℚ) :
    handleDragMove s cx cy = [] ∨
    ∃ id pts, handleDragMove s cx cy = [Emit.pathUpdate id pts] := by
  unfold handleDragMove
  cases s.dragRef with
  | none => left; rfl
  | some d =>
    cases s.imgRect with
    | none => left; rfl
    | some ir =>
      cases s.naturalSize with
      | none => left; rfl
      | some ns => right; exact ⟨_, _, rfl⟩

/-- The canvas prop `activeObjectId` in the admin view is the page's
active object. -/
lemma canvasActiveId_false (v : ViewerState) :
    canvasActiveId false v = v.activeObjectId := rfl

/-- The canvas prop `activeObjectId` in the worker view is always unset. -/
lemma canvasActiveId_true (v : ViewerState) :
    canvasActiveId true v = none := rfl

/-- One event of the admin machine preserves mutual exclusion of drawing
and dragging.  The `startDraw` toolbar event requires the DOM precondition
recorded in `evAllowed`. -/
lemma sysStep_exclusive (s : SysState) (e : Ev)
    (hinv : s.viewer.activeObjectId = none ∨ s.canvas.dragging = false)
    (he : evAllowed s e) :
    (sysStep false s e).viewer.activeObjectId = none ∨
      (sysStep false s e).canvas.dragging = false := by
  cases e with
  | startDraw id ty =>
    right
    have hd : s.canvas.dragging = false := he
    simp only [sysStep, canvasActiveId_false]
    rw [(reset_ite_fields _ _).1]
    exact hd
  | cancelDraw =>
    left
    simp only [sysStep, canvasActiveId_false]
    rfl
  | imageChange url =>
    rcases hinv with h | h
    · left
      simp only [sysStep, canvasActiveId_false]
      exact h
    · right
      simp only [sysStep, canvasActiveId_false]
      rw [(reset_ite_fields _ _).1]
      exact h
  | measure r ns =>
    rcases hinv with h | h
    · left
      simp only [sysStep, canvasActiveId_false]
      exact h
    · right
      simp only [sysStep, canvasActiveId_false]
      rw [(reset_ite_fields _ _).1]
      exact h
  | svgClick container cx cy =>
    rcases hinv with h | h
    · left
      simp only [sysStep, canvasActiveId_false]
      exact h
    · right
      simp only [sysStep, canvasActiveId_false]
      rw [(reset_ite_fields _ _).1, (handleSvgClick_fields _ _ _ _ _).1]
      exact h
  | svgDblClick =>
    rcases hinv with h | h
    · left
      simp only [sysStep, canvasActiveId_false]
      rw [h]
      exact h
    · right
      simp only [sysStep, canvasActiveId_false]
      rw [(reset_ite_fields _ _).1, (handleSvgDoubleClick_fields _ _).1]
      exact h
  | keyDown ke =>
    rcases hinv with h | h
    · left
      simp only [sysStep, canvasActiveId_false]
      exact h
    · right
      simp only [sysStep, canvasActiveId_false]
      rw [(reset_ite_fields _ _).1, (handleKeyDown_fields _ _ _).1]
      exact h
  | pathMouseDown client idx =>
    cases hobj : s.viewer.objects[idx]? with
    | none =>
      rcases hinv with h | h
      · left
        simp only [sysStep, canvasActiveId_false]
        rw [hobj]
        exact h
      · right
        simp only [sysStep, canvasActiveId_false]
        rw [hobj]
        rw [(reset_ite_fields _ _).1]
        exact h
    | some obj =>
      cases hact : s.viewer.activeObjectId with
      | some id =>
        right
        simp only [sysStep, canvasActiveId_false]
        rw [hobj, hact]
        unfold pathOnMouseDown handlePathMouseDown
        rcases hinv with h | h
        · rw [hact] at h; cases h
        · simp only [Bool.false_eq_true, if_false, Option.isSome_some,
            if_true]
          rw [(reset_ite_fields _ _).1]
          exact h
      | none =>
        left
        simp only [sysStep, canvasActiveId_false]
        rw [hobj, hact]
        unfold pathOnMouseDown handlePathMouseDown
        simp [applyEmit, hact]
  | pathClick idx =>
    rcases hinv with h | h
    · left
      simp only [sysStep, canvasActiveId_false]
      cases hobj : s.viewer.objects[idx]? with
      | none => exact h
      | some obj =>
        by_cases hd : s.canvas.dragging = true
        · simp [h, hd]
        · simp [h, hd, applyEmit]
    · right
      simp only [sysStep, canvasActiveId_false]
      cases hobj : s.viewer.objects[idx]? with
      | none =>
        rw [(reset_ite_fields _ _).1]
        exact h
      | some obj =>
        by_cases hs2 : s.viewer.activeObjectId.isSome || s.canvas.dragging
        · simp only [hs2, if_true]
          rw [(reset_ite_fields _ _).1]
          exact h
        · simp only [Bool.not_eq_true] at hs2
          simp only [hs2, Bool.false_eq_true, if_false]
          rw [(reset_ite_fields _ _).1]
          exact h
  | mouseMove container cx cy =>
    rcases hinv with h | h
    · left
      simp only [sysStep, canvasActiveId_false]
      rw [mouseMove_emits]
      by_cases hd : s.canvas.dragging = true
      · rw [if_pos hd]
        rcases handleDragMove_emits s.canvas cx cy with he2 | ⟨pid, pts, he2⟩
        · rw [he2]
          exact h
        · rw [he2]
          simp [applyEmit, handlePathUpdate, h]
      · rw [if_neg hd]
        exact h
    · right
      simp only [sysStep, canvasActiveId_false]
      rw [(reset_ite_fields _ _).1, (mouseMove_preserves _ _ _ _ _).1]
      exact h
  | dragEnd =>
    right
    simp only [sysStep, canvasActiveId_false]
    rw [(reset_ite_fields _ _).1]
    rfl

/-- In the worker view no event can open a drag session: every step keeps
the drag mode off and the drag snapshot empty. -/
lemma sysStep_worker_nodrag (s : SysState) (e : Ev)
    (h1 : s.canvas.dragging = false) (h2 : s.canvas.dragRef = none) :
    (sysStep true s e).canvas.dragging = false ∧
    (sysStep true s e).canvas.dragRef = none := by
  cases e with
  | startDraw id ty =>
    constructor
    · simp only [sysStep]
      rw [(reset_ite_fields _ _).1]
      exact h1
    · simp only [sysStep]
      rw [(reset_ite_fields _ _).2]
      exact h2
  | cancelDraw =>
    constructor
    · simp only [sysStep]
      rw [(reset_ite_fields _ _).1]
      exact h1
    · simp only [sysStep]
      rw [(reset_ite_fields _ _).2]
      exact h2
  | imageChange url =>
    constructor
    · simp only [sysStep]
      rw [(reset_ite_fields _ _).1]
      exact h1
    · simp only [sysStep]
      rw [(reset_ite_fields _ _).2]
      exact h2
  | measure r ns =>
    constructor
    · simp only [sysStep]
      rw [(reset_ite_fields _ _).1]
      exact h1
    · simp only [sysStep]
      rw [(reset_ite_fields _ _).2]
      exact h2
  | svgClick container cx cy =>
    constructor
    · simp only [sysStep]
      rw [(reset_ite_fields _ _).1, (handleSvgClick_fields _ _ _ _ _).1]
      exact h1
    · simp only [sysStep]
      rw [(reset_ite_fields _ _).2, (handleSvgClick_fields _ _ _ _ _).2]
      exact h2
  | svgDblClick =>
    constructor
    · simp only [sysStep]
      rw [(reset_ite_fields _ _).1, (handleSvgDoubleClick_fields _ _).1]
      exact h1
    · simp only [sysStep]
      rw [(reset_ite_fields _ _).2, (handleSvgDoubleClick_fields _ _).2]
      exact h2
  | keyDown ke =>
    constructor
    · simp only [sysStep]
      rw [(reset_ite_fields _ _).1, (handleKeyDown_fields _ _ _).1]
      exact h1
    · simp only [sysStep]
      rw [(reset_ite_fields _ _).2, (handleKeyDown_fields _ _ _).2]
      exact h2
  | pathMouseDown client idx =>
    cases hobj : s.viewer.objects[idx]? with
    | none =>
      constructor
      · simp only [sysStep]
        rw [hobj]
        rw [(reset_ite_fields _ _).1]
        exact h1
      · simp only [sysStep]
        rw [hobj]
        rw [(reset_ite_fields _ _).2]
        exact h2
    | some obj =>
      constructor
      · simp only [sysStep]
        rw [hobj]
        simp only [pathOnMouseDown, if_true]
        rw [(reset_ite_fields _ _).1]
        exact h1
      · simp only [sysStep]
        rw [hobj]
        simp only [pathOnMouseDown, if_true]
        rw [(reset_ite_fields _ _).2]
        exact h2
  | pathClick idx =>
    cases hobj : s.viewer.objects[idx]? with
    | none =>
      constructor
      · simp only [sysStep]
        rw [hobj]
        rw [(reset_ite_fields _ _).1]
        exact h1
      · simp only [sysStep]
        rw [hobj]
        rw [(reset_ite_fields _ _).2]
        exact h2
    | some obj =>
      constructor
      · simp only [sysStep]
        rw [hobj]
        split
        · rw [(reset_ite_fields _ _).1]
          exact h1
        · rw [(reset_ite_fields _ _).1]
          exact h1
      · simp only [sysStep]
        rw [hobj]
        split
        · rw [(reset_ite_fields _ _).2]
          exact h2
        · rw [(reset_ite_fields _ _).2]
          exact h2
  | mouseMove container cx cy =>
    constructor
    · simp only [sysStep]
      rw [(reset_ite_fields _ _).1, (mouseMove_preserves _ _ _ _ _).1]
      exact h1
    · simp only [sysStep]
      rw [(reset_ite_fields _ _).2, (mouseMove_preserves _ _ _ _ _).2.1]
      exact h2
  | dragEnd =>
    constructor
    · simp only [sysStep]
      rw [(reset_ite_fields _ _).1]
      rfl
    · simp only [sysStep]
      rw [(reset_ite_fields _ _).2]
      rfl

/-- C8: drawing and dragging are mutually exclusive.  A mousedown on a
path while an annotation is active is a complete no-op (no drag session
opens, nothing is emitted); a click while a drag session is open never
appends a point; and every state of the machine reachable under the DOM
event discipline of `evAllowed` has no active drawing or no open drag. -/
theorem drawing_dragging_exclusive :
    (∀ (id : String) (s : CanvasState) (client : Point)
        (obj : AnnotationObject),
      handlePathMouseDown (some id) s client obj = (s, [])) ∧
    (∀ (act : Option String) (container : Option Rect) (s : CanvasState)
        (cx cy : ℚ), s.dragging = true →
      handleSvgClick act container s cx cy = s) ∧
    (∀ s, Reachable false s →
      s.viewer.activeObjectId = none ∨ s.canvas.dragging = false) := by
  refine ⟨?_, ?_, ?_⟩
  · intro id s client obj
    simp [handlePathMouseDown]
  · intro act container s cx cy h
    simp [handleSvgClick, h]
  · intro s hs
    induction hs with
    | init => left; rfl
    | step s' e hs' he ih => exact sysStep_exclusive s' e ih he

/-- The state after loading an image in the admin machine. -/
def afterImageLoad : SysState :=
  sysStep false initSys (Ev.imageChange (some "plan.png"))

/-- Witness for C8: a click during the open drag session of
`draggingCanvas` is a no-op, and the exclusion invariant holds at the
concrete reachable state reached by loading an image and pressing the
draw-pipe button. -/
theorem drawing_dragging_exclusive_witness :
    handleSvgClick (some "obj-1") none draggingCanvas 3 4 = draggingCanvas ∧
    ((sysStep false afterImageLoad
        (Ev.startDraw "obj-1" "pipe")).viewer.activeObjectId = none ∨
      (sysStep false afterImageLoad
        (Ev.startDraw "obj-1" "pipe")).canvas.dragging = false) := by
  constructor
  · exact drawing_dragging_exclusive.2.1 (some "obj-1") none draggingCanvas
      3 4 rfl
  · exact drawing_dragging_exclusive.2.2 _
      (Reachable.step _ _ (Reachable.step _ _ Reachable.init trivial) rfl)

/-- C9: in the worker (read-only) view no input can start a drag: the
path mousedown dispatcher is a complete no-op (no snapshot captured,
no selection emitted), every reachable state of the worker machine has
the drag mode off and no snapshot, and the drag affordance cursors
`grab`/`grabbing` are never offered. -/
theorem worker_cannot_drag :
    (∀ (act : Option String) (s : CanvasState) (client : Point)
        (obj : AnnotationObject),
      pathOnMouseDown true act s client obj = (s, [])) ∧
    (∀ s, Reachable true s →
      s.canvas.dragging = false ∧ s.canvas.dragRef = none) ∧
    (∀ (act : Option String) (isSelected dragging : Bool),
      pathCursor act isSelected true dragging ≠ "grab" ∧
      pathCursor act isSelected true dragging ≠ "grabbing") := by
  refine ⟨?_, ?_, ?_⟩
  · intro act s client obj
    rfl
  · intro s hs
    induction hs with
    | init => exact ⟨rfl, rfl⟩
    | step s' e hs' he ih => exact sysStep_worker_nodrag s' e ih.1 ih.2
  · intro act isSelected dragging
    have hval : pathCursor act isSelected true dragging = "crosshair" ∨
        pathCursor act isSelected true dragging = "pointer" := by
      cases act <;> simp [pathCursor]
    rcases hval with hv | hv <;> rw [hv] <;> exact ⟨by decide, by decide⟩

/-- Witness for C9: the dispatcher ignores a mousedown on a path, and the
invariant holds at the concrete worker state reached by one path
mousedown event. -/
theorem worker_cannot_drag_witness :
    pathOnMouseDown true none draggingCanvas ⟨1, 2⟩
        ⟨"obj-9", "pipe", [⟨0, 0⟩, ⟨1, 1⟩], none, none, false, false⟩ =
      (draggingCanvas, []) ∧
    ((sysStep true initSys (Ev.pathMouseDown ⟨1, 2⟩ 0)).canvas.dragging =
        false ∧
      (sysStep true initSys (Ev.pathMouseDown ⟨1, 2⟩ 0)).canvas.dragRef =
        none) := by
  constructor
  · exact worker_cannot_drag.1 none draggingCanvas ⟨1, 2⟩ _
  · exact worker_cannot_drag.2.1 _
      (Reachable.step _ _ Reachable.init trivial)

/-- A canvas state measured with the image rect `(10,20,100,50)` inside
its container and natural size `200 × 100`. -/
def offsetCanvas : CanvasState :=
  ⟨[⟨1, 1⟩], [], none, false, none, some ⟨10, 20, 100, 50⟩,
    some ⟨200, 100⟩⟩

/-- C10: with a valid geometry frame the projection never clamps: a
pointer outside the rendered image rectangle maps outside
`[0, naturalWidth] × [0, naturalHeight]` (negative coordinates included),
and a click there while drawing appends exactly that out-of-bounds point
to the buffer. -/
theorem projection_unclamped (ir : Rect) (ns : NaturalSize) (cRect : Rect)
    (cx cy : ℚ) (hw : 0 < ir.width) (hh : 0 < ir.height)
    (hnw : 0 < ns.w) (hnh : 0 < ns.h)
    (hout : cx < cRect.left + ir.left ∨
      cRect.left + ir.left + ir.width < cx ∨
      cy < cRect.top + ir.top ∨ cRect.top + ir.top + ir.height < cy) :
    ((clientToSvg (some ir) (some ns) (some cRect) cx cy).x < 0 ∨
      ns.w < (clientToSvg (some ir) (some ns) (some cRect) cx cy).x ∨
      (clientToSvg (some ir) (some ns) (some cRect) cx cy).y < 0 ∨
      ns.h < (clientToSvg (some ir) (some ns) (some cRect) cx cy).y) ∧
    (∀ (id : String) (s : CanvasState), s.imgRect = some ir →
      s.naturalSize = some ns → s.dragging = false →
      handleSvgClick (some id) (some cRect) s cx cy =
        { s with
            currentPoints := s.currentPoints ++
              [clientToSvg (some ir) (some ns) (some cRect) cx cy],
            redoStack := [] }) := by
  constructor
  · have hx : (clientToSvg (some ir) (some ns) (some cRect) cx cy).x =
        (cx - cRect.left - ir.left) / ir.width * ns.w := rfl
    have hy : (clientToSvg (some ir) (some ns) (some cRect) cx cy).y =
        (cy - cRect.top - ir.top) / ir.height * ns.h := rfl
    rcases hout with h | h | h | h
    · left
      rw [hx]
      exact mul_neg_of_neg_of_pos
        (div_neg_of_neg_of_pos (by linarith) hw) hnw
    · right; left
      rw [hx, div_mul_eq_mul_div, lt_div_iff₀ hw]
      nlinarith [mul_lt_mul_of_pos_right
        (show ir.width < cx - cRect.left - ir.left from by linarith) hnw]
    · right; right; left
      rw [hy]
      exact mul_neg_of_neg_of_pos
        (div_neg_of_neg_of_pos (by linarith) hh) hnh
    · right; right; right
      rw [hy, div_mul_eq_mul_div, lt_div_iff₀ hh]
      nlinarith [mul_lt_mul_of_pos_right
        (show ir.height < cy - cRect.top - ir.top from by linarith) hnh]
  · intro id s h1 h2 h3
    simp [handleSvgClick, h3, h1, h2]

/-- Witness for C10: a pointer left of the rendered image maps to a
negative x, and a click there appends that point unchanged. -/
theorem projection_unclamped_witness :
    ((clientToSvg (some ⟨10, 20, 100, 50⟩) (some ⟨200, 100⟩)
        (some ⟨5, 5, 400, 300⟩) 0 40).x < 0 ∨
      (200 : ℚ) < (clientToSvg (some ⟨10, 20, 100, 50⟩) (some ⟨200, 100⟩)
        (some ⟨5, 5, 400, 300⟩) 0 40).x ∨
      (clientToSvg (some ⟨10, 20, 100, 50⟩) (some ⟨200, 100⟩)
        (some ⟨5, 5, 400, 300⟩) 0 40).y < 0 ∨
      (100 : ℚ) < (clientToSvg (some ⟨10, 20, 100, 50⟩) (some ⟨200, 100⟩)
        (some ⟨5, 5, 400, 300⟩) 0 40).y) ∧
    handleSvgClick (some "obj-1") (some ⟨5, 5, 400, 300⟩) offsetCanvas
        0 40 =
      { offsetCanvas with
          currentPoints := offsetCanvas.currentPoints ++
            [clientToSvg (some ⟨10, 20, 100, 50⟩) (some ⟨200, 100⟩)
              (some ⟨5, 5, 400, 300⟩) 0 40],
          redoStack := [] } := by
  have h := projection_unclamped ⟨10, 20, 100, 50⟩ ⟨200, 100⟩
    ⟨5, 5, 400, 300⟩ 0 40 (by norm_num) (by norm_num) (by norm_num)
    (by norm_num) (Or.inl (by norm_num))
  exact ⟨h.1, h.2 "obj-1" offsetCanvas rfl rfl rfl⟩

end ConstructFlow
